import Mathlib

/-!
Report generator (`src/ReportGenerator.refactored.js`).

A shallow embedding of the module: the two formatters, the role policy
(`filterItemsByUserRole`, `processAdminItems`, `processUserItems`), the aggregator
(`calculateTotal`), the builder (`buildReport`) and the entry point (`generateReport`).

Modelling decisions.

* Numbers (`value`, totals, numeric ids) are the finite integer-valued doubles, carried as
  integers. Addition rounds the exact sum to the nearest double, ties to even (`jsAdd`), and
  Number-to-string gives the shortest digits that identify the double, as an integer below
  `10^21` and in exponent form from there on (`numberToString`). Fractions, `NaN` and the infinities are not modelled, nor is a sum that
  overflows the doubles; the theorems about totals state the range they hold in.
* An item is a record with `id`, `name`, `value`, an optional boolean `priority`
  (absent is `none`) and `rest`, the other own properties that the object spread copies.
* A user has a `name` and a `role`; a missing role is `none`.
* An exception is a value of `JsError`; a function that can throw returns `Except`.
* `String.prototype.trim` strips the ECMAScript `WhiteSpace` and `LineTerminator`
  code points from both ends.
-/

set_option autoImplicit false

namespace ReportGen

/-! ## Constants -/

/-- Source constant `USER_VALUE_LIMIT = 500`. -/
def USER_VALUE_LIMIT : Int := 500

/-- Source constant `PRIORITY_THRESHOLD = 1000`. -/
def PRIORITY_THRESHOLD : Int := 1000

/-! ## Numbers -/

/-- Number of halvings that bring `m` below `2^53`; `fuel` bounds the recursion. -/
def shiftCount : Nat → Nat → Nat
  | 0, _ => 0
  | fuel + 1, m => if m < 2 ^ 53 then 0 else shiftCount fuel (m / 2) + 1

/-- The double nearest to a natural number: 53 significant bits, ties to the even one. -/
def roundNat (m : Nat) : Nat :=
  if m < 2 ^ 53 then m
  else
    let e := shiftCount m m
    let q := m / 2 ^ e
    let r := m % 2 ^ e
    let half := 2 ^ (e - 1)
    if r > half ∨ (r = half ∧ q % 2 = 1) then (q + 1) * 2 ^ e else q * 2 ^ e

/-- The double nearest to an integer. -/
def roundToDouble (n : Int) : Int :=
  match n with
  | .ofNat m => Int.ofNat (roundNat m)
  | .negSucc m => -Int.ofNat (roundNat (m + 1))

/-- The operator `+` on two numbers: the exact sum, rounded to a double. -/
def jsAdd (a b : Int) : Int := roundToDouble (a + b)

/-- The text `d.ddd` followed by `e+N` for a natural number, its trailing zeros dropped. -/
def scientific (v : Nat) : String :=
  let digits := Nat.toDigits 10 v
  let significant := (digits.reverse.dropWhile (· == '0')).reverse
  match significant with
  | [] => "0"
  | d :: rest =>
    String.mk (d :: (if rest.isEmpty then [] else '.' :: rest))
      ++ "e+" ++ toString (digits.length - 1)

/-- The decimal with `k` significant digits that converts to the double `m`, the nearest to `m`
when two of them do. -/
def shortestWith (m k : Nat) : Option Nat :=
  let scale := 10 ^ ((Nat.toDigits 10 m).length - k)
  let lo := m / scale * scale
  let hi := lo + scale
  let okLo := roundNat lo == m
  let okHi := roundNat hi == m
  if okLo && okHi then
    if m - lo < hi - m then some lo
    else if hi - m < m - lo then some hi
    else if (m / scale) % 2 = 0 then some lo else some hi
  else if okLo then some lo
  else if okHi then some hi
  else none

/-- The decimal with the fewest significant digits that converts to the double `m`. -/
def shortestDecimal (m : Nat) : Nat :=
  match (List.range 17).findSome? fun i => shortestWith m (i + 1) with
  | some v => v
  | none => m

/-- Number-to-string of a natural number. A safe integer is printed with all its digits; a
larger double with the digits that identify it, followed by zeros below `10^21` and in exponent
form from there on. -/
def natToString (m : Nat) : String :=
  if m < 2 ^ 53 then toString m
  else
    let v := shortestDecimal m
    if v < 10 ^ 21 then toString v else scientific v

/-- Number-to-string, the conversion of a number inside a template literal. -/
def numberToString (x : Int) : String :=
  match x with
  | .ofNat m => natToString m
  | .negSucc m => "-" ++ natToString (m + 1)

/-- Constant `Number.MAX_SAFE_INTEGER`, `2^53 - 1`. -/
def MAX_SAFE_INTEGER : Int := 9007199254740991

/-- Predicate `Number.isSafeInteger` on an integer. -/
def isSafeInteger (n : Int) : Bool :=
  decide (-MAX_SAFE_INTEGER ≤ n ∧ n ≤ MAX_SAFE_INTEGER)

/-! ## Data model -/

/-- An item identifier: a number or a string. -/
inductive ItemId where
  | num (n : Int)
  | str (s : String)
  deriving DecidableEq, Repr

/-- Text of an identifier inside a template literal. -/
def ItemId.render : ItemId → String
  | .num n => numberToString n
  | .str s => s

/-- An item object: `priority` is the optional annotation, `rest` any further own properties. -/
structure Item where
  id : ItemId
  name : String
  value : Int
  priority : Option Bool := none
  rest : List (String × String) := []
  deriving DecidableEq, Repr

/-- A user object; `role = none` is a missing role. -/
structure User where
  name : String
  role : Option String
  deriving DecidableEq, Repr

/-- The identifying fields of an item, without the priority annotation. -/
def Item.core (item : Item) : ItemId × String × Int × List (String × String) :=
  (item.id, item.name, item.value, item.rest)

/-- JavaScript truthiness of `item.priority`, the value of `item.priority || false`. -/
def Item.isPriority (item : Item) : Bool :=
  match item.priority with
  | some true => true
  | _ => false

/-! ## Exceptions -/

/-- The expression that was being evaluated when an exception was thrown. -/
inductive Site where
  /-- `this.formatters[reportType]` in `generateReport`. -/
  | formatLookup
  /-- `formatter.generateHeader(user.name)` in `buildReport`. -/
  | headerCall
  deriving DecidableEq, Repr

/-- Why ECMAScript throws a `TypeError` on a member call `o.m(...)`. -/
inductive TypeErrorCause where
  /-- The receiver `o` is `undefined`: the property cannot be read. -/
  | propertyOfUndefined
  /-- The receiver is an object but `o.m` is `undefined`: it is not callable. -/
  | notAFunction
  deriving DecidableEq, Repr

/-- A thrown exception. Every exception of this module is a `TypeError`. -/
structure JsError where
  site : Site
  cause : TypeErrorCause
  deriving DecidableEq, Repr

/-! ## `String.prototype.trim` -/

/-- ECMAScript `WhiteSpace` and `LineTerminator` code points. -/
def isJsWhiteSpace (c : Char) : Bool :=
  c.toNat ∈ [0x09, 0x0A, 0x0B, 0x0C, 0x0D, 0x20, 0xA0, 0x1680,
    0x2000, 0x2001, 0x2002, 0x2003, 0x2004, 0x2005, 0x2006, 0x2007, 0x2008, 0x2009, 0x200A,
    0x2028, 0x2029, 0x202F, 0x205F, 0x3000, 0xFEFF]

/-- Trim on the character list: drop white space at the front, then at the back. -/
def trimChars (cs : List Char) : List Char :=
  ((cs.dropWhile isJsWhiteSpace).reverse.dropWhile isJsWhiteSpace).reverse

/-- Method `trim` of a string. -/
def jsTrim (s : String) : String := ⟨trimChars s.data⟩

/-! ## Formatters (strategy objects) -/

/-- An object with the three formatter methods. -/
structure Formatter where
  generateHeader : String → String
  generateItemRow : Item → String → Bool → String
  generateFooter : Int → String

/-- Class `CSVFormatter`. -/
def CSVFormatter : Formatter where
  generateHeader := fun _ => "ID,NOME,VALOR,USUARIO\n"
  generateItemRow := fun item userName _ =>
    item.id.render ++ "," ++ item.name ++ "," ++ numberToString item.value ++ "," ++ userName ++ "\n"
  generateFooter := fun total => "\nTotal,,\n" ++ numberToString total ++ ",,\n"

/-- Class `HTMLFormatter`. -/
def HTMLFormatter : Formatter where
  generateHeader := fun userName =>
    "<html><body>\n<h1>Relatório</h1>\n<h2>Usuário: " ++ userName
      ++ "</h2>\n<table>\n<tr><th>ID</th><th>Nome</th><th>Valor</th></tr>\n"
  generateItemRow := fun item _ isPriority =>
    let style := if isPriority then " style=\"font-weight:bold;\"" else ""
    "<tr" ++ style ++ "><td>" ++ item.id.render ++ "</td><td>" ++ item.name ++ "</td><td>"
      ++ numberToString item.value ++ "</td></tr>\n"
  generateFooter := fun total =>
    "</table>\n<h3>Total: " ++ numberToString total ++ "</h3>\n</body></html>\n"

/-- What the property read `this.formatters[reportType]` evaluates to. -/
inductive FormatterSlot where
  /-- An own property of the table: a formatter instance. -/
  | formatter (f : Formatter)
  /-- A member inherited from `Object.prototype`; it has no `generateHeader`. -/
  | inherited
  /-- No such property. -/
  | undefined

/-- Property names that a plain object inherits from `Object.prototype`. -/
def objectPrototypeKeys : List String :=
  ["constructor", "__proto__", "hasOwnProperty", "isPrototypeOf", "propertyIsEnumerable",
   "toLocaleString", "toString", "valueOf", "__defineGetter__", "__defineSetter__",
   "__lookupGetter__", "__lookupSetter__"]

/-- The object literal `{ CSV: new CSVFormatter(), HTML: new HTMLFormatter() }`, read by key. -/
def formatterTable (reportType : String) : FormatterSlot :=
  if reportType = "CSV" then .formatter CSVFormatter
  else if reportType = "HTML" then .formatter HTMLFormatter
  else if reportType ∈ objectPrototypeKeys then .inherited
  else .undefined

/-! ## Class `ReportGenerator` -/

/-- Instance state: the stored `database` and the formatter table. -/
structure ReportGenerator (Db : Type) where
  db : Db
  formatters : String → FormatterSlot

namespace ReportGenerator

variable {Db : Type}

/-- The constructor. -/
def new (database : Db) : ReportGenerator Db :=
  { db := database, formatters := formatterTable }

/-- Method `processAdminItems`: copy every item, marking those above the threshold. -/
def processAdminItems (items : List Item) : List Item :=
  items.map fun item =>
    let processedItem : Item := { item with }
    if item.value > PRIORITY_THRESHOLD then
      { processedItem with priority := some true }
    else
      processedItem

/-- Method `processUserItems`: keep the items within the user limit. -/
def processUserItems (items : List Item) : List Item :=
  items.filter fun item => decide (item.value ≤ USER_VALUE_LIMIT)

/-- Method `filterItemsByUserRole`. -/
def filterItemsByUserRole (user : User) (items : List Item) : List Item :=
  if user.role = some "ADMIN" then
    processAdminItems items
  else if user.role = some "USER" then
    processUserItems items
  else
    []

/-- Method `calculateTotal`: `reduce` with `sum + item.value` from 0. -/
def calculateTotal (items : List Item) : Int :=
  items.foldl (fun sum item => jsAdd sum item.value) 0

/-- Method `buildReport`: header, one row per item in a loop, footer, then `trim`. -/
def buildReport (formatter : FormatterSlot) (user : User) (items : List Item) (total : Int) :
    Except JsError String :=
  match formatter with
  | .undefined => .error { site := .headerCall, cause := .propertyOfUndefined }
  | .inherited => .error { site := .headerCall, cause := .notAFunction }
  | .formatter f =>
    let report := ""
    let report := report ++ f.generateHeader user.name
    let report := items.foldl (fun report item =>
      let isPriority := item.isPriority
      report ++ f.generateItemRow item user.name isPriority) report
    let report := report ++ f.generateFooter total
    .ok (jsTrim report)

/-- Method `generateReport`, the entry point. -/
def generateReport (self : ReportGenerator Db) (reportType : String) (user : User)
    (items : List Item) : Except JsError String :=
  let formatter := self.formatters reportType
  let filteredItems := filterItemsByUserRole user items
  let total := calculateTotal filteredItems
  buildReport formatter user filteredItems total

end ReportGenerator

/-! ## The same policy on an object store

Items are objects reached through references. `processAdminItems` creates a new object
for every item (`{ ...item }`) and assigns `priority` on the new object only;
`processUserItems` returns the references it was given.
-/

/-- The object store: the object at address `r` is `heap[r]`. -/
abbrev Heap := List Item

/-- Object creation: the new object is stored at a fresh address, which is returned. -/
def Heap.alloc (heap : Heap) (obj : Item) : Heap × Nat :=
  (heap ++ [obj], heap.length)

/-- Assignment `o.priority = true` through the reference `r`. -/
def Heap.setPriority (heap : Heap) (r : Nat) : Heap :=
  match heap[r]? with
  | none => heap
  | some o => heap.set r { o with priority := some true }

/-- The items a list of references points to; `none` marks a dangling reference. -/
def Heap.deref (heap : Heap) (refs : List Nat) : List (Option Item) :=
  refs.map fun r => heap[r]?

/-- Reading the objects behind a list of references; `none` when one of them is dangling. -/
def Heap.read (heap : Heap) : List Nat → Option (List Item)
  | [] => some []
  | r :: rs =>
    match heap[r]?, Heap.read heap rs with
    | some item, some items => some (item :: items)
    | _, _ => none

namespace OnHeap

/-- The callback of `items.map` in `processAdminItems`, for the item at reference `r`. -/
def adminCallback (heap : Heap) (r : Nat) : Option (Heap × Nat) :=
  match heap[r]? with
  | none => none
  | some item =>
    let (heap, processedItem) := heap.alloc { item with }
    let heap := if item.value > PRIORITY_THRESHOLD then heap.setPriority processedItem else heap
    some (heap, processedItem)

/-- Method `processAdminItems` on references; `none` when a reference that is read points to
no object. -/
def processAdminItems : Heap → List Nat → Option (Heap × List Nat)
  | heap, [] => some (heap, [])
  | heap, r :: rs =>
    match adminCallback heap r with
    | none => none
    | some (heap, p) =>
      match processAdminItems heap rs with
      | none => none
      | some (heap, ps) => some (heap, p :: ps)

/-- Method `processUserItems` on references: a filter, the store is untouched. -/
def processUserItems (heap : Heap) (refs : List Nat) : Option (Heap × List Nat) :=
  if refs.all (fun r => (heap[r]?).isSome) then
    some (heap, refs.filter fun r =>
      match heap[r]? with
      | some item => decide (item.value ≤ USER_VALUE_LIMIT)
      | none => false)
  else
    none

/-- Method `filterItemsByUserRole` on references. -/
def filterItemsByUserRole (heap : Heap) (user : User) (refs : List Nat) :
    Option (Heap × List Nat) :=
  if user.role = some "ADMIN" then
    processAdminItems heap refs
  else if user.role = some "USER" then
    processUserItems heap refs
  else
    some (heap, [])

/-- Method `generateReport` on references: the filter may create objects, the total and the
builder only read the objects of the filtered list. The generator itself is never assigned to. -/
def generateReport {Db : Type} (self : ReportGenerator Db) (heap : Heap) (reportType : String)
    (user : User) (refs : List Nat) : Option (Heap × Except JsError String) :=
  let formatter := self.formatters reportType
  match filterItemsByUserRole heap user refs with
  | none => none
  | some (heap, filteredRefs) =>
    match heap.read filteredRefs with
    | none => none
    | some filteredItems =>
      let total := ReportGenerator.calculateTotal filteredItems
      some (heap, ReportGenerator.buildReport formatter user filteredItems total)

end OnHeap

/-! ## The documents as the specification words them -/

namespace Spec

/-- The CSV document of the specification: the title line, one line per visible item, a blank
line, the line `Total,,` and the line of the total, the last one without newline. -/
def csvDocument (userName : String) (visible : List Item) (total : Int) : String :=
  "ID,NOME,VALOR,USUARIO\n"
    ++ String.join (visible.map fun item =>
        item.id.render ++ "," ++ item.name ++ "," ++ numberToString item.value ++ "," ++ userName
          ++ "\n")
    ++ "\n"
    ++ "Total,,\n"
    ++ numberToString total ++ ",,"

/-- The opening tag of an item row: bold exactly for a prioritized item. -/
def rowTag (prioritized : Bool) : String :=
  if prioritized then "<tr style=\"font-weight:bold;\">" else "<tr>"

/-- The HTML document of the specification. -/
def htmlDocument (userName : String) (visible : List Item) (total : Int) : String :=
  "<html><body>\n"
    ++ "<h1>Relatório</h1>\n"
    ++ "<h2>Usuário: " ++ userName ++ "</h2>\n"
    ++ "<table>\n"
    ++ "<tr><th>ID</th><th>Nome</th><th>Valor</th></tr>\n"
    ++ String.join (visible.map fun item =>
        rowTag item.isPriority ++ "<td>" ++ item.id.render ++ "</td><td>" ++ item.name
          ++ "</td><td>" ++ numberToString item.value ++ "</td></tr>\n")
    ++ "</table>\n"
    ++ "<h3>Total: " ++ numberToString total ++ "</h3>\n"
    ++ "</body></html>"

/-- The number `2^1024`, the least magnitude that is not a finite double. -/
def DOUBLE_LIMIT : Nat :=
  179769313486231590772930519078902473361797697894230657273430081157732675805500963132708477322407536021120113879871393357658789768814416622492847430639474124377767893424865485276302219601246094119453082952085005768838150682342462881473913110540827237163350510684586298239947245938479716304835356329624224137216

/-- The integer is a finite double: rounding leaves it as it is and it is below `2^1024` in
magnitude. -/
def isFiniteDouble (n : Int) : Bool :=
  decide (roundToDouble n = n) && decide (n.natAbs < DOUBLE_LIMIT)

/-- A numeric identifier is a finite double; a string identifier is any string. -/
def finiteId : ItemId → Bool
  | .num n => isFiniteDouble n
  | .str _ => true

/-- The numbers of the list are numbers of the program: every numeric id and every value is a
finite double, and no running total of the `reduce` from `start` overflows the doubles. -/
def finiteFrom (start : Int) : List Item → Bool
  | [] => true
  | item :: items =>
    finiteId item.id && isFiniteDouble item.value && isFiniteDouble (jsAdd start item.value)
      && finiteFrom (jsAdd start item.value) items

/-- The numbers of the list are finite doubles and their total, computed from 0, is finite. -/
def finiteNumbers (items : List Item) : Bool := finiteFrom 0 items

/-- Every value of the list is a safe integer, and so is every running total of the values
when they are added in list order to `start`. -/
def safeFrom (start : Int) : List Item → Bool
  | [] => true
  | item :: items =>
    isSafeInteger item.value && isSafeInteger (start + item.value)
      && safeFrom (start + item.value) items

/-- The values of the list and all their running totals from 0 are safe integers. -/
def safeTotals (items : List Item) : Bool := safeFrom 0 items

/-- An item with its priority annotation removed. -/
def withoutPriority (item : Item) : Item :=
  { item with priority := none }

end Spec

/-! ## Scenario data -/

/-- The two items of the spec scenarios. -/
def scenarioItems : List Item :=
  [{ id := .num 1, name := "A", value := 1500 }, { id := .num 2, name := "B", value := 200 }]

/-- Scenario user Bob, an administrator. -/
def bob : User := { name := "Bob", role := some "ADMIN" }

/-- Scenario user Carol, an ordinary user. -/
def carol : User := { name := "Carol", role := some "USER" }

/-- A user with a role outside the two known ones. -/
def guest : User := { name := "Eve", role := some "GUEST" }

/-- A user object without a role. -/
def noRole : User := { name := "Dan", role := none }

/-- Two items whose values add up to `2^53 + 1`, which is not a double. -/
def largeItems : List Item :=
  [{ id := .num 1, name := "A", value := 9007199254740992 },
   { id := .num 2, name := "B", value := 1 }]

/-- Three items of non-negative value whose sum is `2^53 + 2`. -/
def largeItemsAndOne : List Item :=
  [{ id := .num 1, name := "A", value := 9007199254740992 },
   { id := .num 2, name := "B", value := 1 },
   { id := .num 3, name := "C", value := 1 }]

/-- An item whose value is `10^21`. -/
def hugeItem : Item := { id := .num 1, name := "A", value := 1000000000000000000000 }

/-- An item that already carries the annotation although its value is low. -/
def preAnnotated : Item := { id := .num 1, name := "A", value := 200, priority := some true }

/-! ## Auxiliary lemmas -/

/-- The loop `report += g(item)` appends the rows in list order. -/
theorem foldl_append_rows {α : Type} (g : α → String) (xs : List α) (init : String) :
    xs.foldl (fun report x => report ++ g x) init = init ++ String.join (xs.map g) := by
  induction xs generalizing init with
  | nil => simp [String.join]
  | cons x xs ih =>
    simp only [List.foldl_cons, List.map_cons, ih]
    apply String.ext
    simp [String.data_join, List.append_assoc]

/-- Trimming a text that starts and ends with visible characters and is followed by one
newline removes exactly that newline. -/
theorem trimChars_newline (c d : Char) (mid : List Char)
    (hc : isJsWhiteSpace c = false) (hd : isJsWhiteSpace d = false) :
    trimChars (c :: (mid ++ [d, '\n'])) = c :: (mid ++ [d]) := by
  have hn : isJsWhiteSpace '\n' = true := by decide
  simp [trimChars, List.dropWhile, hc, hd, hn]

/-- A formatter that is an own property of the table makes `buildReport` return the trimmed
concatenation of header, rows in list order, and footer. -/
theorem buildReport_formatter (f : Formatter) (user : User) (items : List Item) (total : Int) :
    ReportGenerator.buildReport (.formatter f) user items total
      = .ok (jsTrim (f.generateHeader user.name
          ++ String.join (items.map fun item => f.generateItemRow item user.name item.isPriority)
          ++ f.generateFooter total)) := by
  simp only [ReportGenerator.buildReport]
  rw [foldl_append_rows (fun item => f.generateItemRow item user.name item.isPriority)]
  simp

/-- The constant `DOUBLE_LIMIT` is `2^1024`. -/
theorem DOUBLE_LIMIT_eq : Spec.DOUBLE_LIMIT = (2 ^ 256) ^ 4 := by decide

/-- A safe integer is a double: rounding leaves it as it is. -/
theorem roundToDouble_of_safe (n : Int) (h : isSafeInteger n = true) : roundToDouble n = n := by
  simp only [isSafeInteger, MAX_SAFE_INTEGER, decide_eq_true_eq] at h
  cases n with
  | ofNat m =>
    have hm : m < 2 ^ 53 := by
      have := h.2
      simp only [Int.ofNat_eq_coe] at this
      omega
    show Int.ofNat (roundNat m) = Int.ofNat m
    unfold roundNat
    rw [if_pos hm]
  | negSucc m =>
    have hm : m + 1 < 2 ^ 53 := by
      have := h.1
      rw [Int.negSucc_eq] at this
      omega
    show -Int.ofNat (roundNat (m + 1)) = Int.negSucc m
    unfold roundNat
    rw [if_pos hm]
    rfl

/-- A safe integer is printed with its decimal digits. -/
theorem numberToString_of_safe (n : Int) (h : isSafeInteger n = true) :
    numberToString n = toString n := by
  simp only [isSafeInteger, MAX_SAFE_INTEGER, decide_eq_true_eq] at h
  cases n with
  | ofNat m =>
    have hm : m < 2 ^ 53 := by
      have := h.2
      simp only [Int.ofNat_eq_coe] at this
      omega
    simp only [numberToString, natToString, hm, if_true]
    rfl
  | negSucc m =>
    have hm : m + 1 < 2 ^ 53 := by
      have := h.1
      rw [Int.negSucc_eq] at this
      omega
    simp only [numberToString, natToString, hm, if_true]
    rfl

/-- The `reduce` of `calculateTotal` from any start value, while the running totals are safe
integers. -/
theorem foldl_value_sum (items : List Item) (start : Int)
    (h : Spec.safeFrom start items = true) :
    items.foldl (fun sum item => jsAdd sum item.value) start
      = start + (items.map fun item => item.value).sum := by
  induction items generalizing start with
  | nil => simp
  | cons x xs ih =>
    simp only [Spec.safeFrom, Bool.and_eq_true] at h
    have hstep : jsAdd start x.value = start + x.value := roundToDouble_of_safe _ h.1.2
    simp only [List.foldl_cons, List.map_cons, List.sum_cons, hstep]
    rw [ih (start + x.value) h.2, Int.add_assoc]

/-- The total is the sum of the values, while the running totals are safe integers. -/
theorem calculateTotal_eq_sum (items : List Item) (h : Spec.safeTotals items = true) :
    ReportGenerator.calculateTotal items = (items.map fun item => item.value).sum := by
  unfold ReportGenerator.calculateTotal
  rw [foldl_value_sum items 0 h]
  simp

/-- Every value of a list with safe running totals is a safe integer. -/
theorem safeFrom_value (items : List Item) (start : Int) (h : Spec.safeFrom start items = true) :
    ∀ item ∈ items, isSafeInteger item.value = true := by
  induction items generalizing start with
  | nil => intro item hi; cases hi
  | cons x xs ih =>
    simp only [Spec.safeFrom, Bool.and_eq_true] at h
    intro item hi
    rcases List.mem_cons.mp hi with rfl | hi
    · exact h.1.1
    · exact ih _ h.2 item hi

/-- The last running total of a list with safe running totals is a safe integer. -/
theorem safeFrom_sum (items : List Item) (start : Int) (hs : isSafeInteger start = true)
    (h : Spec.safeFrom start items = true) :
    isSafeInteger (start + (items.map fun item => item.value).sum) = true := by
  induction items generalizing start with
  | nil => simpa using hs
  | cons x xs ih =>
    simp only [Spec.safeFrom, Bool.and_eq_true] at h
    have := ih (start + x.value) h.1.2 h.2
    simpa [Int.add_assoc] using this

/-- A key that is neither `CSV` nor `HTML` resolves to no formatter. -/
theorem formatterTable_unsupported (reportType : String)
    (hcsv : reportType ≠ "CSV") (hhtml : reportType ≠ "HTML") :
    formatterTable reportType = .inherited ∨ formatterTable reportType = .undefined := by
  unfold formatterTable
  rw [if_neg hcsv, if_neg hhtml]
  by_cases h : reportType ∈ objectPrototypeKeys
  · left; rw [if_pos h]
  · right; rw [if_neg h]

/-! ## C1: unsupported format keys -/

/-- C1 (as stated, refuted): for the key `PDF` the failure of `generateReport` is not raised
where the format is resolved; no exception of this module comes from the table lookup. -/
theorem generateReport_pdf_not_raised_at_lookup :
    ¬ ∃ e : JsError, (ReportGenerator.new ()).generateReport "PDF" bob scenarioItems = .error e
        ∧ e.site = Site.formatLookup := by
  rintro ⟨e, he, hsite⟩
  have h : (ReportGenerator.new ()).generateReport "PDF" bob scenarioItems
      = .error { site := .headerCall, cause := .propertyOfUndefined } := by rfl
  rw [h] at he
  cases he
  cases hsite

/-- C1 (amended): for every key other than `CSV` and `HTML`, every user and every item list,
`generateReport` throws and returns no text; the exception is the `TypeError` of the first
formatter call in `buildReport`, `formatter.generateHeader(user.name)`. -/
theorem generateReport_unsupported_throws {Db : Type} (database : Db) (reportType : String)
    (user : User) (items : List Item)
    (hcsv : reportType ≠ "CSV") (hhtml : reportType ≠ "HTML") :
    (∃ cause : TypeErrorCause,
        (ReportGenerator.new database).generateReport reportType user items
          = .error { site := .headerCall, cause := cause })
      ∧ ∀ text : String,
          (ReportGenerator.new database).generateReport reportType user items ≠ .ok text := by
  have hres : ∃ cause : TypeErrorCause,
      (ReportGenerator.new database).generateReport reportType user items
        = .error { site := .headerCall, cause := cause } := by
    rcases formatterTable_unsupported reportType hcsv hhtml with h | h
    · exact ⟨.notAFunction, by
        simp [ReportGenerator.generateReport, ReportGenerator.new, h, ReportGenerator.buildReport]⟩
    · exact ⟨.propertyOfUndefined, by
        simp [ReportGenerator.generateReport, ReportGenerator.new, h, ReportGenerator.buildReport]⟩
  refine ⟨hres, ?_⟩
  intro text htext
  obtain ⟨cause, hc⟩ := hres
  rw [hc] at htext
  cases htext

/-- C1 witness: the key `PDF` with the scenario items and an administrator. -/
theorem generateReport_unsupported_throws_witness :
    ("PDF" ≠ "CSV" ∧ "PDF" ≠ "HTML")
      ∧ ((∃ cause : TypeErrorCause,
            (ReportGenerator.new ()).generateReport "PDF" bob scenarioItems
              = .error { site := .headerCall, cause := cause })
          ∧ ∀ text : String,
              (ReportGenerator.new ()).generateReport "PDF" bob scenarioItems ≠ .ok text) :=
  ⟨⟨by decide, by decide⟩,
    generateReport_unsupported_throws () "PDF" bob scenarioItems (by decide) (by decide)⟩

/-! ## C2: what an administrator sees -/

/-- What the callback of `processAdminItems` returns for one item. -/
theorem adminCallback_spec (x : Item) :
    let out : Item :=
      (fun item : Item =>
        let processedItem : Item := { item with }
        if item.value > PRIORITY_THRESHOLD then
          { processedItem with priority := some true }
        else processedItem) x
    out.core = x.core
      ∧ (out.value > 1000 → out.priority = some true)
      ∧ (out.value ≤ 1000 → out.priority = x.priority) := by
  dsimp only
  by_cases h : x.value > PRIORITY_THRESHOLD
  · have h1 : x.value > 1000 := h
    rw [if_pos h]
    exact ⟨rfl, fun _ => rfl, fun h2 => absurd h1 (not_lt.mpr h2)⟩
  · have h1 : ¬ x.value > 1000 := h
    rw [if_neg h]
    exact ⟨rfl, fun h2 => absurd h2 h1, fun _ => rfl⟩

/-- The callback of `processAdminItems` keeps the fields of the item and sets `priority`
exactly when the value is above the threshold. -/
theorem processAdminItems_forall₂ (items : List Item) :
    List.Forall₂
      (fun inp out => out.core = inp.core
        ∧ (out.value > 1000 → out.priority = some true)
        ∧ (out.value ≤ 1000 → out.priority = inp.priority))
      items (ReportGenerator.processAdminItems items) := by
  unfold ReportGenerator.processAdminItems
  rw [List.forall₂_map_right_iff, List.forall₂_same]
  intro x _
  exact adminCallback_spec x

/-- Every item returned by `processAdminItems` is the processed copy of an input item. -/
theorem processAdminItems_mem (items : List Item) (out : Item)
    (hout : out ∈ ReportGenerator.processAdminItems items) :
    ∃ inp ∈ items, out.core = inp.core
      ∧ (out.value > 1000 → out.priority = some true)
      ∧ (out.value ≤ 1000 → out.priority = inp.priority) := by
  unfold ReportGenerator.processAdminItems at hout
  obtain ⟨inp, hinp, heq⟩ := List.mem_map.mp hout
  exact ⟨inp, hinp, heq ▸ adminCallback_spec inp⟩

/-- C2 (as stated, refuted): an administrator is given an item of value 200 that already
carries `priority: true`; the returned item has value at most 1000 and a truthy priority. -/
theorem admin_low_value_item_keeps_truthy_priority :
    ¬ ∀ out ∈ ReportGenerator.filterItemsByUserRole bob [preAnnotated],
        (out.value > 1000 → out.priority = some true)
          ∧ (out.value ≤ 1000 → out.isPriority = false) := by
  intro h
  have h1 := (h preAnnotated (by decide)).2 (by decide)
  exact absurd h1 (by decide)

/-- C2 (amended): for an administrator the result has the length of the input; the i-th result
has the value of the i-th input, has `priority = true` when that value exceeds 1000, and otherwise
keeps the priority of the i-th input. So when no input item carries a truthy priority, the
items of value at most 1000 have no truthy priority. -/
theorem admin_items_annotated (user : User) (items : List Item)
    (hrole : user.role = some "ADMIN") :
    (ReportGenerator.filterItemsByUserRole user items).length = items.length
      ∧ List.Forall₂
          (fun inp out => out.value = inp.value
            ∧ (out.value > 1000 → out.priority = some true)
            ∧ (out.value ≤ 1000 → out.priority = inp.priority))
          items (ReportGenerator.filterItemsByUserRole user items)
      ∧ ((∀ inp ∈ items, inp.isPriority = false) →
          ∀ out ∈ ReportGenerator.filterItemsByUserRole user items,
            (out.value > 1000 → out.priority = some true)
              ∧ (out.value ≤ 1000 → out.isPriority = false)) := by
  have hf : ReportGenerator.filterItemsByUserRole user items
      = ReportGenerator.processAdminItems items := by
    simp [ReportGenerator.filterItemsByUserRole, hrole]
  have hall : List.Forall₂
      (fun inp out => out.value = inp.value
        ∧ (out.value > 1000 → out.priority = some true)
        ∧ (out.value ≤ 1000 → out.priority = inp.priority))
      items (ReportGenerator.processAdminItems items) := by
    refine (processAdminItems_forall₂ items).imp ?_
    intro inp out h
    refine ⟨?_, h.2.1, h.2.2⟩
    have hc := h.1
    simp only [Item.core, Prod.mk.injEq] at hc
    exact hc.2.2.1
  rw [hf]
  refine ⟨by simp [ReportGenerator.processAdminItems], hall, ?_⟩
  intro hin out hout
  obtain ⟨inp, hinp, hrel⟩ := processAdminItems_mem items out hout
  refine ⟨hrel.2.1, fun hle => ?_⟩
  have hp := hrel.2.2 hle
  have hq := hin inp hinp
  simp only [Item.isPriority, hp] at hq ⊢
  exact hq

/-- C2 witness: Bob, an administrator, and the two scenario items. -/
theorem admin_items_annotated_witness :
    bob.role = some "ADMIN"
      ∧ (ReportGenerator.filterItemsByUserRole bob scenarioItems).length = scenarioItems.length
      ∧ (ReportGenerator.filterItemsByUserRole bob scenarioItems).map (fun out => out.priority)
          = [some true, none] :=
  ⟨by decide, (admin_items_annotated bob scenarioItems (by decide)).1, by decide⟩

/-! ## C3: what an ordinary user sees -/

/-- C3: for a user of role `USER` the result is exactly the input items of value at most 500,
in input order and unchanged: an item is returned when it is in the input and its value is at
most 500 (500 itself is kept, 501 is not), and nothing else. -/
theorem user_items_within_limit (user : User) (items : List Item)
    (hrole : user.role = some "USER") :
    ReportGenerator.filterItemsByUserRole user items
        = items.filter (fun item => decide (item.value ≤ 500))
      ∧ (∀ item : Item, item ∈ ReportGenerator.filterItemsByUserRole user items
          ↔ item ∈ items ∧ item.value ≤ 500)
      ∧ ∀ item : Item,
          (item.value = 500 → ReportGenerator.filterItemsByUserRole user [item] = [item])
            ∧ (item.value > 500 → ReportGenerator.filterItemsByUserRole user [item] = []) := by
  have hf : ReportGenerator.filterItemsByUserRole user items
      = items.filter (fun item => decide (item.value ≤ 500)) := by
    simp [ReportGenerator.filterItemsByUserRole, hrole, ReportGenerator.processUserItems,
      USER_VALUE_LIMIT]
  refine ⟨hf, ?_, ?_⟩
  · intro item
    rw [hf]
    simp [List.mem_filter]
  · intro item
    constructor
    · intro h
      simp [ReportGenerator.filterItemsByUserRole, hrole, ReportGenerator.processUserItems,
        USER_VALUE_LIMIT, h]
    · intro h
      have h2 : ¬ item.value ≤ 500 := not_le.mpr h
      simp [ReportGenerator.filterItemsByUserRole, hrole, ReportGenerator.processUserItems,
        USER_VALUE_LIMIT, h2]

/-- C3 witness: Carol sees only the second scenario item, as it was supplied. -/
theorem user_items_within_limit_witness :
    carol.role = some "USER"
      ∧ ReportGenerator.filterItemsByUserRole carol scenarioItems
          = [{ id := .num 2, name := "B", value := 200 }] :=
  ⟨by decide, (user_items_within_limit carol scenarioItems (by decide)).1.trans (by decide)⟩

/-! ## C4: any other role -/

/-- C4: a user whose role is neither `ADMIN` nor `USER`, a missing role included, sees no
item at all. -/
theorem other_role_sees_nothing (user : User) (items : List Item)
    (hadmin : user.role ≠ some "ADMIN") (huser : user.role ≠ some "USER") :
    ReportGenerator.filterItemsByUserRole user items = [] := by
  unfold ReportGenerator.filterItemsByUserRole
  rw [if_neg hadmin, if_neg huser]

/-- C4 witness: a user without a role, with the scenario items. -/
theorem other_role_sees_nothing_witness :
    (noRole.role ≠ some "ADMIN" ∧ noRole.role ≠ some "USER")
      ∧ ReportGenerator.filterItemsByUserRole noRole scenarioItems = [] :=
  ⟨⟨by decide, by decide⟩, other_role_sees_nothing noRole scenarioItems (by decide) (by decide)⟩

/-! ## C5: the total of the footer -/

/-- C5 (as stated, refuted): for an administrator and the values `2^53` and 1 the total handed
to the footer is `2^53`, the double nearest to the sum, and not the arithmetic sum `2^53 + 1`;
the CSV report prints that total. -/
theorem footer_total_rounds_beyond_safe_range :
    ReportGenerator.calculateTotal (ReportGenerator.filterItemsByUserRole bob largeItems)
        = 9007199254740992
      ∧ ((ReportGenerator.filterItemsByUserRole bob largeItems).map fun item => item.value).sum
        = 9007199254740993
      ∧ ¬ ReportGenerator.calculateTotal (ReportGenerator.filterItemsByUserRole bob largeItems)
          = ((ReportGenerator.filterItemsByUserRole bob largeItems).map fun item => item.value).sum
      ∧ (ReportGenerator.new ()).generateReport "CSV" bob largeItems
        = .ok ("ID,NOME,VALOR,USUARIO\n1,A,9007199254740992,Bob\n2,B,1,Bob\n\nTotal,,\n"
            ++ "9007199254740992,,") := by
  refine ⟨by decide, by decide, by decide, ?_⟩
  rfl

/-- C5 (amended): for a supported format, when the values of the visible items and their
running totals are safe integers, the report is built from the filtered items with, as footer
total, the sum of the values of exactly those items (0 for none); for a `USER` and values
1500 and 200 that total is 200, not the 1700 of the unfiltered input. -/
theorem footer_total_is_sum_of_visible {Db : Type} (database : Db) (reportType : String)
    (user : User) (items : List Item) (hfmt : reportType = "CSV" ∨ reportType = "HTML")
    (hsafe : Spec.safeTotals (ReportGenerator.filterItemsByUserRole user items) = true) :
    (∃ f : Formatter, (ReportGenerator.new database).formatters reportType = .formatter f
        ∧ (ReportGenerator.new database).generateReport reportType user items
            = .ok (jsTrim (f.generateHeader user.name
                ++ String.join ((ReportGenerator.filterItemsByUserRole user items).map
                    fun item => f.generateItemRow item user.name item.isPriority)
                ++ f.generateFooter
                    ((ReportGenerator.filterItemsByUserRole user items).map
                      fun item => item.value).sum)))
      ∧ ReportGenerator.calculateTotal (ReportGenerator.filterItemsByUserRole user items)
          = ((ReportGenerator.filterItemsByUserRole user items).map fun item => item.value).sum
      ∧ ReportGenerator.calculateTotal [] = 0
      ∧ ReportGenerator.calculateTotal (ReportGenerator.filterItemsByUserRole carol scenarioItems)
          = 200
      ∧ ReportGenerator.calculateTotal scenarioItems = 1700 := by
  refine ⟨?_, calculateTotal_eq_sum _ hsafe, rfl, by decide, by decide⟩
  have hgen : ∀ f : Formatter, formatterTable reportType = .formatter f →
      (ReportGenerator.new database).generateReport reportType user items
        = .ok (jsTrim (f.generateHeader user.name
            ++ String.join ((ReportGenerator.filterItemsByUserRole user items).map
                fun item => f.generateItemRow item user.name item.isPriority)
            ++ f.generateFooter
                ((ReportGenerator.filterItemsByUserRole user items).map
                  fun item => item.value).sum)) := by
    intro f hf
    simp only [ReportGenerator.generateReport, ReportGenerator.new, hf]
    rw [buildReport_formatter, calculateTotal_eq_sum _ hsafe]
  rcases hfmt with h | h
  · subst h
    exact ⟨CSVFormatter, rfl, hgen CSVFormatter rfl⟩
  · subst h
    exact ⟨HTMLFormatter, rfl, hgen HTMLFormatter rfl⟩

/-- C5 witness: the CSV report of Carol over the scenario items. -/
theorem footer_total_is_sum_of_visible_witness :
    (("CSV" = "CSV" ∨ "CSV" = "HTML")
        ∧ Spec.safeTotals (ReportGenerator.filterItemsByUserRole carol scenarioItems) = true)
      ∧ ReportGenerator.calculateTotal (ReportGenerator.filterItemsByUserRole carol scenarioItems)
          = ((ReportGenerator.filterItemsByUserRole carol scenarioItems).map
              fun item => item.value).sum :=
  ⟨⟨Or.inl rfl, by decide⟩,
    (footer_total_is_sum_of_visible () "CSV" carol scenarioItems (Or.inl rfl) (by decide)).2.1⟩

/-! ## C6 and C7: the exact documents -/

/-- Trimming `c ++ mid ++ d ++ newline`, with `c` and `d` visible characters, removes the newline
and nothing else. -/
theorem jsTrim_line (c d : Char) (mid : String)
    (hc : isJsWhiteSpace c = false) (hd : isJsWhiteSpace d = false) :
    jsTrim (String.singleton c ++ mid ++ String.singleton d ++ "\n")
      = String.singleton c ++ mid ++ String.singleton d := by
  apply String.ext
  have h := trimChars_newline c d mid.data hc hd
  have e1 : (String.singleton c ++ mid ++ String.singleton d ++ "\n").data
      = c :: (mid.data ++ [d, '\n']) := by
    simp [String.data_append, String.singleton, String.push]
  have e2 : (String.singleton c ++ mid ++ String.singleton d).data = c :: (mid.data ++ [d]) := by
    simp [String.data_append, String.singleton, String.push]
  simp only [jsTrim, e1, e2, h]

/-- The untrimmed CSV text is the specified document followed by one newline. -/
theorem csv_raw_eq (userName : String) (visible : List Item) (total : Int) :
    CSVFormatter.generateHeader userName
        ++ String.join (visible.map fun item =>
            CSVFormatter.generateItemRow item userName item.isPriority)
        ++ CSVFormatter.generateFooter total
      = Spec.csvDocument userName visible total ++ "\n" := by
  have h1 : ("\nTotal,,\n" : String) = "\n" ++ "Total,,\n" := by decide
  have h2 : (",,\n" : String) = ",," ++ "\n" := by decide
  simp only [CSVFormatter, Spec.csvDocument]
  rw [h1, h2]
  simp only [String.append_assoc]

/-- Trimming the untrimmed CSV text gives the specified document. -/
theorem csv_trim_eq (userName : String) (visible : List Item) (total : Int) :
    jsTrim (Spec.csvDocument userName visible total ++ "\n")
      = Spec.csvDocument userName visible total := by
  have h1 : ("ID,NOME,VALOR,USUARIO\n" : String)
      = String.singleton 'I' ++ "D,NOME,VALOR,USUARIO\n" := by decide
  have h2 : (",," : String) = "," ++ String.singleton ',' := by decide
  have hdoc : Spec.csvDocument userName visible total
      = String.singleton 'I'
        ++ ("D,NOME,VALOR,USUARIO\n"
          ++ (String.join (visible.map fun item =>
              item.id.render ++ "," ++ item.name ++ "," ++ numberToString item.value ++ "," ++ userName
                ++ "\n")
            ++ ("\n" ++ ("Total,,\n" ++ (numberToString total ++ ",")))))
        ++ String.singleton ',' := by
    simp only [Spec.csvDocument]
    rw [h1, h2]
    simp only [String.append_assoc]
  rw [hdoc]
  exact jsTrim_line 'I' ',' _ (by decide) (by decide)

/-- The untrimmed HTML text is the specified document followed by one newline. -/
theorem html_raw_eq (userName : String) (visible : List Item) (total : Int) :
    HTMLFormatter.generateHeader userName
        ++ String.join (visible.map fun item =>
            HTMLFormatter.generateItemRow item userName item.isPriority)
        ++ HTMLFormatter.generateFooter total
      = Spec.htmlDocument userName visible total ++ "\n" := by
  have h1 : ("<html><body>\n<h1>Relatório</h1>\n<h2>Usuário: " : String)
      = "<html><body>\n" ++ ("<h1>Relatório</h1>\n" ++ "<h2>Usuário: ") := by decide
  have h2 : ("</h2>\n<table>\n<tr><th>ID</th><th>Nome</th><th>Valor</th></tr>\n" : String)
      = "</h2>\n" ++ ("<table>\n" ++ "<tr><th>ID</th><th>Nome</th><th>Valor</th></tr>\n") := by
    decide
  have h3 : ("</h3>\n</body></html>\n" : String) = "</h3>\n" ++ ("</body></html>" ++ "\n") := by
    decide
  have h4 : ("</table>\n<h3>Total: " : String) = "</table>\n" ++ "<h3>Total: " := by decide
  have hrow : ∀ item : Item,
      HTMLFormatter.generateItemRow item userName item.isPriority
        = Spec.rowTag item.isPriority ++ "<td>" ++ item.id.render ++ "</td><td>" ++ item.name
            ++ "</td><td>" ++ numberToString item.value ++ "</td></tr>\n" := by
    intro item
    have e1 : ("<tr" ++ " style=\"font-weight:bold;\"" ++ "><td>" : String)
        = "<tr style=\"font-weight:bold;\">" ++ "<td>" := by decide
    have e2 : ("<tr" ++ "" ++ "><td>" : String) = "<tr>" ++ "<td>" := by decide
    cases hp : item.isPriority
    · simp only [HTMLFormatter, Spec.rowTag, Bool.false_eq_true, if_false, e2]
    · simp only [HTMLFormatter, Spec.rowTag, if_true, e1]
  have hrows : (visible.map fun item =>
        HTMLFormatter.generateItemRow item userName item.isPriority)
      = visible.map fun item =>
        Spec.rowTag item.isPriority ++ "<td>" ++ item.id.render ++ "</td><td>" ++ item.name
          ++ "</td><td>" ++ numberToString item.value ++ "</td></tr>\n" :=
    List.map_congr_left fun item _ => hrow item
  rw [hrows]
  simp only [HTMLFormatter, Spec.htmlDocument]
  rw [h1, h2, h3, h4]
  simp only [String.append_assoc]

/-- Trimming the untrimmed HTML text gives the specified document. -/
theorem html_trim_eq (userName : String) (visible : List Item) (total : Int) :
    jsTrim (Spec.htmlDocument userName visible total ++ "\n")
      = Spec.htmlDocument userName visible total := by
  have h1 : ("<html><body>\n" : String) = String.singleton '<' ++ "html><body>\n" := by decide
  have h2 : ("</body></html>" : String) = "</body></html" ++ String.singleton '>' := by decide
  have hdoc : Spec.htmlDocument userName visible total
      = String.singleton '<'
        ++ ("html><body>\n" ++ ("<h1>Relatório</h1>\n" ++ ("<h2>Usuário: " ++ (userName
          ++ ("</h2>\n" ++ ("<table>\n" ++ ("<tr><th>ID</th><th>Nome</th><th>Valor</th></tr>\n"
          ++ (String.join (visible.map fun item =>
              Spec.rowTag item.isPriority ++ "<td>" ++ item.id.render ++ "</td><td>"
                ++ item.name ++ "</td><td>" ++ numberToString item.value ++ "</td></tr>\n")
            ++ ("</table>\n" ++ ("<h3>Total: " ++ (numberToString total ++ ("</h3>\n"
              ++ "</body></html"))))))))))))
        ++ String.singleton '>' := by
    simp only [Spec.htmlDocument]
    rw [h1, h2]
    simp only [String.append_assoc]
  rw [hdoc]
  exact jsTrim_line '<' '>' _ (by decide) (by decide)

/-- The CSV report in closed form. -/
theorem generateReport_csv {Db : Type} (database : Db) (user : User) (items : List Item) :
    (ReportGenerator.new database).generateReport "CSV" user items
      = .ok (Spec.csvDocument user.name (ReportGenerator.filterItemsByUserRole user items)
          (ReportGenerator.calculateTotal (ReportGenerator.filterItemsByUserRole user items))) := by
  have hf : formatterTable "CSV" = .formatter CSVFormatter := rfl
  simp only [ReportGenerator.generateReport, ReportGenerator.new, hf]
  rw [buildReport_formatter, csv_raw_eq, csv_trim_eq]

/-- The HTML report in closed form. -/
theorem generateReport_html {Db : Type} (database : Db) (user : User) (items : List Item) :
    (ReportGenerator.new database).generateReport "HTML" user items
      = .ok (Spec.htmlDocument user.name (ReportGenerator.filterItemsByUserRole user items)
          (ReportGenerator.calculateTotal (ReportGenerator.filterItemsByUserRole user items))) := by
  have hf : formatterTable "HTML" = .formatter HTMLFormatter := rfl
  simp only [ReportGenerator.generateReport, ReportGenerator.new, hf]
  rw [buildReport_formatter, html_raw_eq, html_trim_eq]

/-- C6: when the numbers of the visible items are finite doubles and their total does not
overflow, `generateReport("CSV", user, items)` is exactly the title line, one line
`id,name,value,userName` per visible item in order, a blank line, the line `Total,,` and
`total,,` without final newline, numbers converted as in a template literal (the decimal digits
for every safe integer); the untrimmed text is that document plus one newline, so the trim
removes the last newline only. For the scenario items and Carol it is the document of
scenario B; a value of `10^21` is printed as `1e+21`. -/
theorem csv_report_exact {Db : Type} (database : Db) (user : User) (items : List Item)
    (_hfinite : Spec.finiteNumbers (ReportGenerator.filterItemsByUserRole user items) = true) :
    (ReportGenerator.new database).generateReport "CSV" user items
        = .ok (Spec.csvDocument user.name (ReportGenerator.filterItemsByUserRole user items)
            (ReportGenerator.calculateTotal (ReportGenerator.filterItemsByUserRole user items)))
      ∧ CSVFormatter.generateHeader user.name
          ++ String.join ((ReportGenerator.filterItemsByUserRole user items).map fun item =>
              CSVFormatter.generateItemRow item user.name item.isPriority)
          ++ CSVFormatter.generateFooter
              (ReportGenerator.calculateTotal (ReportGenerator.filterItemsByUserRole user items))
        = Spec.csvDocument user.name (ReportGenerator.filterItemsByUserRole user items)
            (ReportGenerator.calculateTotal (ReportGenerator.filterItemsByUserRole user items))
          ++ "\n"
      ∧ (∀ n : Int, isSafeInteger n = true → numberToString n = toString n)
      ∧ (ReportGenerator.new database).generateReport "CSV" carol scenarioItems
        = .ok "ID,NOME,VALOR,USUARIO\n2,B,200,Carol\n\nTotal,,\n200,,"
      ∧ (ReportGenerator.new database).generateReport "CSV" bob [hugeItem]
        = .ok "ID,NOME,VALOR,USUARIO\n1,A,1e+21,Bob\n\nTotal,,\n1e+21,," := by
  refine ⟨generateReport_csv database user items, csv_raw_eq _ _ _, numberToString_of_safe,
    ?_, ?_⟩
  · rw [generateReport_csv database carol scenarioItems]
    rfl
  · rw [generateReport_csv database bob [hugeItem]]
    rfl

/-- C6 witness: Carol and the scenario items. -/
theorem csv_report_exact_witness :
    Spec.finiteNumbers (ReportGenerator.filterItemsByUserRole carol scenarioItems) = true
      ∧ (ReportGenerator.new ()).generateReport "CSV" carol scenarioItems
        = .ok (Spec.csvDocument carol.name
            (ReportGenerator.filterItemsByUserRole carol scenarioItems)
            (ReportGenerator.calculateTotal
              (ReportGenerator.filterItemsByUserRole carol scenarioItems))) :=
  ⟨by decide, (csv_report_exact () carol scenarioItems (by decide)).1⟩

set_option maxRecDepth 20000 in
/-- C7: when the numbers of the visible items are finite doubles and their total does not
overflow, `generateReport("HTML", user, items)` is exactly the opening `<html><body>`, the title,
the `<h2>` with the user name, the table with its header row, one `<tr>` per visible item in
order with the three `<td>` cells, bold exactly when the item is prioritized, then `</table>`,
the `<h3>` with the total and `</body></html>`, numbers converted as in a template literal (the
decimal digits for every safe integer). For Bob and the scenario items the first row is bold,
the second is not, and the total is 1700; a value of `10^21` is printed as `1e+21`. -/
theorem html_report_exact {Db : Type} (database : Db) (user : User) (items : List Item)
    (_hfinite : Spec.finiteNumbers (ReportGenerator.filterItemsByUserRole user items) = true) :
    (ReportGenerator.new database).generateReport "HTML" user items
        = .ok (Spec.htmlDocument user.name (ReportGenerator.filterItemsByUserRole user items)
            (ReportGenerator.calculateTotal (ReportGenerator.filterItemsByUserRole user items)))
      ∧ (∀ n : Int, isSafeInteger n = true → numberToString n = toString n)
      ∧ (ReportGenerator.new database).generateReport "HTML" bob scenarioItems
        = .ok ("<html><body>\n<h1>Relatório</h1>\n<h2>Usuário: Bob</h2>\n<table>\n"
            ++ "<tr><th>ID</th><th>Nome</th><th>Valor</th></tr>\n"
            ++ "<tr style=\"font-weight:bold;\"><td>1</td><td>A</td><td>1500</td></tr>\n"
            ++ "<tr><td>2</td><td>B</td><td>200</td></tr>\n"
            ++ "</table>\n<h3>Total: 1700</h3>\n</body></html>")
      ∧ (ReportGenerator.new database).generateReport "HTML" bob [hugeItem]
        = .ok ("<html><body>\n<h1>Relatório</h1>\n<h2>Usuário: Bob</h2>\n<table>\n"
            ++ "<tr><th>ID</th><th>Nome</th><th>Valor</th></tr>\n"
            ++ "<tr style=\"font-weight:bold;\"><td>1</td><td>A</td><td>1e+21</td></tr>\n"
            ++ "</table>\n<h3>Total: 1e+21</h3>\n</body></html>") := by
  refine ⟨generateReport_html database user items, numberToString_of_safe, ?_, ?_⟩
  · rw [generateReport_html database bob scenarioItems]
    rfl
  · rw [generateReport_html database bob [hugeItem]]
    rfl

/-- C7 witness: Bob and the scenario items. -/
theorem html_report_exact_witness :
    Spec.finiteNumbers (ReportGenerator.filterItemsByUserRole bob scenarioItems) = true
      ∧ (ReportGenerator.new ()).generateReport "HTML" bob scenarioItems
        = .ok (Spec.htmlDocument bob.name
            (ReportGenerator.filterItemsByUserRole bob scenarioItems)
            (ReportGenerator.calculateTotal
              (ReportGenerator.filterItemsByUserRole bob scenarioItems))) :=
  ⟨by decide, (html_report_exact () bob scenarioItems (by decide)).1⟩

/-! ## C8: order -/

/-- C8: for every role the returned items, compared by their fields other than the annotation,
form a subsequence of the input in input order; for an administrator they are the whole input
in order; and `buildReport` emits the rows in the order of the list it is given. -/
theorem order_is_preserved (user : User) (items : List Item) (f : Formatter) (total : Int) :
    ((ReportGenerator.filterItemsByUserRole user items).map Item.core).Sublist
        (items.map Item.core)
      ∧ (ReportGenerator.filterItemsByUserRole { user with role := some "ADMIN" } items).map
          Item.core = items.map Item.core
      ∧ ReportGenerator.buildReport (.formatter f) user
          (ReportGenerator.filterItemsByUserRole user items) total
        = .ok (jsTrim (f.generateHeader user.name
            ++ String.join ((ReportGenerator.filterItemsByUserRole user items).map fun item =>
                f.generateItemRow item user.name item.isPriority)
            ++ f.generateFooter total)) := by
  have hadmin : ∀ xs : List Item,
      (ReportGenerator.processAdminItems xs).map Item.core = xs.map Item.core := by
    intro xs
    unfold ReportGenerator.processAdminItems
    rw [List.map_map]
    exact List.map_congr_left fun x _ => (adminCallback_spec x).1
  refine ⟨?_, ?_, buildReport_formatter f user _ total⟩
  · unfold ReportGenerator.filterItemsByUserRole
    split
    · rw [hadmin]
    · split
      · exact (List.filter_sublist items).map Item.core
      · exact List.nil_sublist _
  · simp only [ReportGenerator.filterItemsByUserRole, if_true]
    exact hadmin items

/-! ## C9: an administrator receives copies -/

/-- Objects that exist keep their address and content when the store grows. -/
theorem deref_append (heap ext : Heap) (refs : List Nat) (items : List Item)
    (h : heap.deref refs = items.map some) :
    Heap.deref (heap ++ ext) refs = items.map some := by
  rw [← h]
  unfold Heap.deref
  apply List.map_congr_left
  intro r hr
  have hsome : ∃ x, heap[r]? = some x := by
    have hmem : heap[r]? ∈ Heap.deref heap refs := List.mem_map.mpr ⟨r, hr, rfl⟩
    rw [h] at hmem
    obtain ⟨x, _, hx⟩ := List.mem_map.mp hmem
    exact ⟨x, hx.symm⟩
  obtain ⟨x, hx⟩ := hsome
  have hlt : r < heap.length := by
    by_contra hge
    rw [List.getElem?_eq_none (Nat.le_of_not_lt hge)] at hx
    cases hx
  exact List.getElem?_append_left hlt

/-- One run of the callback: the copy is appended to the store, nothing else changes. -/
theorem adminCallback_eq (heap : Heap) (r : Nat) (item : Item) (h : heap[r]? = some item) :
    OnHeap.adminCallback heap r
      = some (heap ++ ReportGenerator.processAdminItems [item], heap.length) := by
  unfold OnHeap.adminCallback
  rw [h]
  by_cases hv : item.value > PRIORITY_THRESHOLD
  · simp [Heap.alloc, Heap.setPriority, ReportGenerator.processAdminItems, hv]
  · simp [Heap.alloc, ReportGenerator.processAdminItems, hv]

/-- The store version of `processAdminItems` appends the processed copies to the store and
returns their addresses. -/
theorem processAdminItems_heap (heap : Heap) (refs : List Nat) (items : List Item)
    (h : heap.deref refs = items.map some) :
    OnHeap.processAdminItems heap refs
      = some (heap ++ ReportGenerator.processAdminItems items,
          List.range' heap.length refs.length) := by
  induction refs generalizing heap items with
  | nil =>
    cases items with
    | nil => simp [OnHeap.processAdminItems, ReportGenerator.processAdminItems]
    | cons x xs => simp [Heap.deref] at h
  | cons r rs ih =>
    cases items with
    | nil => simp [Heap.deref] at h
    | cons x xs =>
      have hx : heap[r]? = some x := by
        have := h
        simp only [Heap.deref, List.map_cons, List.cons.injEq] at this
        exact this.1
      have hxs : heap.deref rs = xs.map some := by
        have := h
        simp only [Heap.deref, List.map_cons, List.cons.injEq] at this
        exact this.2
      have hxs1 : Heap.deref (heap ++ ReportGenerator.processAdminItems [x]) rs
          = xs.map some := deref_append heap _ rs xs hxs
      have hstep := ih (heap ++ ReportGenerator.processAdminItems [x]) xs hxs1
      simp only [OnHeap.processAdminItems, adminCallback_eq heap r x hx, hstep]
      simp [ReportGenerator.processAdminItems, List.range'_succ]

/-- The addresses `n, n+1, ...` of the objects appended to a store point to those objects. -/
theorem deref_range' (heap ext : Heap) :
    Heap.deref (heap ++ ext) (List.range' heap.length ext.length) = ext.map some := by
  unfold Heap.deref
  apply List.ext_getElem
  · simp
  · intro i h1 h2
    simp only [List.getElem_map, List.getElem_range']
    have hi : i < ext.length := by simpa using h1
    rw [List.getElem?_append_right (by omega)]
    simp [hi]

/-- C9: for an administrator, with the caller items stored as objects, `filterItemsByUserRole`
succeeds and returns references to objects whose contents are the result of the value-level
function; the i-th of them has the id, name, value and other fields of the i-th input and either
its priority or `priority = true`; every object that existed before the call is unchanged, the
caller references still reach the same items, and every returned reference is a new object. -/
theorem admin_returns_copies (heap : Heap) (refs : List Nat) (items : List Item) (user : User)
    (hrole : user.role = some "ADMIN") (hrefs : heap.deref refs = items.map some) :
    ∃ (heap' : Heap) (ps : List Nat),
      OnHeap.filterItemsByUserRole heap user refs = some (heap', ps)
        ∧ heap'.deref ps = (ReportGenerator.filterItemsByUserRole user items).map some
        ∧ List.Forall₂
            (fun inp out => out.id = inp.id ∧ out.name = inp.name ∧ out.value = inp.value
              ∧ out.rest = inp.rest
              ∧ (out.priority = inp.priority ∨ out.priority = some true))
            items (ReportGenerator.filterItemsByUserRole user items)
        ∧ (∀ r : Nat, r < heap.length → heap'[r]? = heap[r]?)
        ∧ heap'.deref refs = items.map some
        ∧ ∀ p ∈ ps, heap.length ≤ p := by
  have hpure : ReportGenerator.filterItemsByUserRole user items
      = ReportGenerator.processAdminItems items := by
    simp [ReportGenerator.filterItemsByUserRole, hrole]
  have hheap : OnHeap.filterItemsByUserRole heap user refs
      = some (heap ++ ReportGenerator.processAdminItems items,
          List.range' heap.length refs.length) := by
    simp only [OnHeap.filterItemsByUserRole, hrole, if_true]
    exact processAdminItems_heap heap refs items hrefs
  have hlen : refs.length = (ReportGenerator.processAdminItems items).length := by
    have := congrArg List.length hrefs
    simpa [Heap.deref, ReportGenerator.processAdminItems] using this
  refine ⟨_, _, hheap, ?_, ?_, ?_, deref_append heap _ refs items hrefs, ?_⟩
  · rw [hpure, hlen]
    exact deref_range' heap _
  · rw [hpure]
    refine (processAdminItems_forall₂ items).imp ?_
    intro inp out h
    have hc := h.1
    simp only [Item.core, Prod.mk.injEq] at hc
    refine ⟨hc.1, hc.2.1, hc.2.2.1, hc.2.2.2, ?_⟩
    by_cases hv : out.value > 1000
    · exact Or.inr (h.2.1 hv)
    · exact Or.inl (h.2.2 (not_lt.mp hv))
  · intro r hr
    exact List.getElem?_append_left hr
  · intro p hp
    exact (List.mem_range'_1.mp hp).1

/-- C9 witness: the two scenario items as the objects 0 and 1 of the store; the copies are the
objects 2 and 3 and the first one carries the annotation. -/
theorem admin_returns_copies_witness :
    (bob.role = some "ADMIN"
        ∧ Heap.deref scenarioItems [0, 1] = scenarioItems.map some)
      ∧ ∃ (heap' : Heap) (ps : List Nat),
        OnHeap.filterItemsByUserRole scenarioItems bob [0, 1] = some (heap', ps)
          ∧ heap'.deref ps = (ReportGenerator.filterItemsByUserRole bob scenarioItems).map some
          ∧ List.Forall₂
              (fun inp out => out.id = inp.id ∧ out.name = inp.name ∧ out.value = inp.value
                ∧ out.rest = inp.rest
                ∧ (out.priority = inp.priority ∨ out.priority = some true))
              scenarioItems (ReportGenerator.filterItemsByUserRole bob scenarioItems)
          ∧ (∀ r : Nat, r < scenarioItems.length → heap'[r]? = scenarioItems[r]?)
          ∧ heap'.deref [0, 1] = scenarioItems.map some
          ∧ ∀ p ∈ ps, scenarioItems.length ≤ p :=
  ⟨⟨by decide, by decide⟩, admin_returns_copies scenarioItems [0, 1] scenarioItems bob
    (by decide) (by decide)⟩

/-! ## C10: a supported format with an unknown role -/

/-- C10: with a supported format and a role that is neither `ADMIN` nor `USER`,
`generateReport` returns a document without item rows and with total 0: for CSV the text
`ID,NOME,VALOR,USUARIO`, blank line, `Total,,`, `0,,`. -/
theorem unknown_role_report_is_empty {Db : Type} (database : Db) (user : User)
    (items : List Item)
    (hadmin : user.role ≠ some "ADMIN") (huser : user.role ≠ some "USER") :
    (ReportGenerator.new database).generateReport "CSV" user items
        = .ok "ID,NOME,VALOR,USUARIO\n\nTotal,,\n0,,"
      ∧ (ReportGenerator.new database).generateReport "HTML" user items
        = .ok ("<html><body>\n<h1>Relatório</h1>\n<h2>Usuário: " ++ user.name ++ "</h2>\n<table>\n"
            ++ "<tr><th>ID</th><th>Nome</th><th>Valor</th></tr>\n"
            ++ "</table>\n<h3>Total: 0</h3>\n</body></html>") := by
  have hnone : ReportGenerator.filterItemsByUserRole user items = [] := by
    unfold ReportGenerator.filterItemsByUserRole
    rw [if_neg hadmin, if_neg huser]
  have h0 : ReportGenerator.calculateTotal [] = 0 := rfl
  constructor
  · rw [generateReport_csv, hnone, h0]
    rfl
  · rw [generateReport_html, hnone, h0]
    have h1 : ("<html><body>\n<h1>Relatório</h1>\n<h2>Usuário: " : String)
        = "<html><body>\n" ++ ("<h1>Relatório</h1>\n" ++ "<h2>Usuário: ") := by decide
    have h2 : ("</h2>\n<table>\n" : String) = "</h2>\n" ++ "<table>\n" := by decide
    have h3 : ("</table>\n<h3>Total: 0</h3>\n</body></html>" : String)
        = "" ++ ("</table>\n" ++ ("<h3>Total: " ++ (numberToString (0 : Int)
            ++ ("</h3>\n" ++ "</body></html>")))) := by decide
    simp only [Spec.htmlDocument, List.map_nil, String.join]
    rw [h1, h2, h3]
    simp only [String.append_assoc, List.foldl_nil]

/-- C10 witness: the guest user with the scenario items. -/
theorem unknown_role_report_is_empty_witness :
    (guest.role ≠ some "ADMIN" ∧ guest.role ≠ some "USER")
      ∧ (ReportGenerator.new ()).generateReport "CSV" guest scenarioItems
        = .ok "ID,NOME,VALOR,USUARIO\n\nTotal,,\n0,," :=
  ⟨⟨by decide, by decide⟩,
    (unknown_role_report_is_empty () guest scenarioItems (by decide) (by decide)).1⟩

/-! ## C11: no hidden state -/

/-- References that point to `items` are read as `items`. -/
theorem read_of_deref (heap : Heap) (refs : List Nat) (items : List Item)
    (h : heap.deref refs = items.map some) : heap.read refs = some items := by
  induction refs generalizing items with
  | nil =>
    cases items with
    | nil => rfl
    | cons x xs => simp [Heap.deref] at h
  | cons r rs ih =>
    cases items with
    | nil => simp [Heap.deref] at h
    | cons x xs =>
      simp only [Heap.deref, List.map_cons, List.cons.injEq] at h
      have hrs : heap.read rs = some xs := ih xs h.2
      simp [Heap.read, h.1, hrs]

/-- The store version of `processUserItems` returns, without touching the store, references
to exactly the items that the value-level function keeps. -/
theorem processUserItems_heap (heap : Heap) (refs : List Nat) (items : List Item)
    (h : heap.deref refs = items.map some) :
    ∃ ps : List Nat, OnHeap.processUserItems heap refs = some (heap, ps)
      ∧ heap.deref ps = (ReportGenerator.processUserItems items).map some := by
  have key : ∀ (rs : List Nat) (xs : List Item), heap.deref rs = xs.map some →
      rs.all (fun r => (heap[r]?).isSome) = true
        ∧ heap.deref (rs.filter fun r =>
            match heap[r]? with
            | some item => decide (item.value ≤ USER_VALUE_LIMIT)
            | none => false)
          = (ReportGenerator.processUserItems xs).map some := by
    intro rs
    induction rs with
    | nil =>
      intro xs hx
      cases xs with
      | nil => simp [Heap.deref, ReportGenerator.processUserItems]
      | cons x xs => simp [Heap.deref] at hx
    | cons r rs ih =>
      intro xs hx
      cases xs with
      | nil => simp [Heap.deref] at hx
      | cons x xs =>
        simp only [Heap.deref, List.map_cons, List.cons.injEq] at hx
        obtain ⟨hall, hfil⟩ := ih xs hx.2
        refine ⟨by simp [hx.1, hall], ?_⟩
        unfold ReportGenerator.processUserItems at hfil ⊢
        by_cases hv : x.value ≤ USER_VALUE_LIMIT
        · simp only [List.filter_cons, hx.1, hv, decide_True, if_true, Heap.deref,
            List.map_cons]
          exact congrArg (some x :: ·) hfil
        · simp only [List.filter_cons, hx.1, hv, decide_False, Bool.false_eq_true, if_false]
          exact hfil
  obtain ⟨hall, hfil⟩ := key refs items h
  exact ⟨_, by simp only [OnHeap.processUserItems, hall, if_true], hfil⟩

/-- The store version of `filterItemsByUserRole` only appends objects to the store, and the
references it returns point to the result of the value-level function. -/
theorem filterItemsByUserRole_heap (heap : Heap) (user : User) (refs : List Nat)
    (items : List Item) (h : heap.deref refs = items.map some) :
    ∃ (ext : Heap) (ps : List Nat),
      OnHeap.filterItemsByUserRole heap user refs = some (heap ++ ext, ps)
        ∧ Heap.deref (heap ++ ext) ps
            = (ReportGenerator.filterItemsByUserRole user items).map some := by
  unfold OnHeap.filterItemsByUserRole ReportGenerator.filterItemsByUserRole
  by_cases hadmin : user.role = some "ADMIN"
  · rw [if_pos hadmin, if_pos hadmin]
    refine ⟨ReportGenerator.processAdminItems items, _, processAdminItems_heap heap refs items h,
      ?_⟩
    have hlen : refs.length = (ReportGenerator.processAdminItems items).length := by
      have := congrArg List.length h
      simpa [Heap.deref, ReportGenerator.processAdminItems] using this
    rw [hlen]
    exact deref_range' heap _
  · rw [if_neg hadmin, if_neg hadmin]
    by_cases huser : user.role = some "USER"
    · rw [if_pos huser, if_pos huser]
      obtain ⟨ps, hps, hd⟩ := processUserItems_heap heap refs items h
      exact ⟨[], ps, by simpa using hps, by simpa using hd⟩
    · rw [if_neg huser, if_neg huser]
      exact ⟨[], [], by simp, by simp [Heap.deref]⟩

/-- A call of `generateReport` on the store returns what the value-level function returns on
the items behind the references, and leaves every existing object as it was. -/
theorem generateReport_heap {Db : Type} (self : ReportGenerator Db) (heap : Heap)
    (reportType : String) (user : User) (refs : List Nat) (items : List Item)
    (h : heap.deref refs = items.map some) :
    ∃ ext : Heap,
      OnHeap.generateReport self heap reportType user refs
        = some (heap ++ ext, self.generateReport reportType user items) := by
  obtain ⟨ext, ps, hf, hd⟩ := filterItemsByUserRole_heap heap user refs items h
  refine ⟨ext, ?_⟩
  have hread := read_of_deref (heap ++ ext) ps _ hd
  simp only [OnHeap.generateReport, hf, hread, ReportGenerator.generateReport]

/-- C11: `generateReport` is deterministic. Two generators constructed with any two database
arguments return the same result for the same format, user and items; and on the object store,
where the first call may have created objects, a second call on the same generator with the same
references returns the very same result (text or exception) as the first, as does a call on
another freshly constructed generator. -/
theorem generateReport_deterministic {DbA DbB : Type} (databaseA : DbA) (databaseB : DbB)
    (reportType : String) (user : User) (items : List Item) (heap : Heap) (refs : List Nat)
    (hrefs : heap.deref refs = items.map some) :
    (ReportGenerator.new databaseA).generateReport reportType user items
        = (ReportGenerator.new databaseB).generateReport reportType user items
      ∧ ∃ (heap1 heap2 : Heap) (out : Except JsError String),
          OnHeap.generateReport (ReportGenerator.new databaseA) heap reportType user refs
              = some (heap1, out)
            ∧ OnHeap.generateReport (ReportGenerator.new databaseA) heap1 reportType user refs
              = some (heap2, out)
            ∧ OnHeap.generateReport (ReportGenerator.new databaseB) heap reportType user refs
              = some (heap1, out)
            ∧ OnHeap.generateReport (ReportGenerator.new databaseB) heap1 reportType user refs
              = some (heap2, out)
            ∧ out = (ReportGenerator.new databaseA).generateReport reportType user items := by
  have hAB : (ReportGenerator.new databaseA).generateReport reportType user items
      = (ReportGenerator.new databaseB).generateReport reportType user items := rfl
  have hstore : ∀ (hp : Heap),
      OnHeap.generateReport (ReportGenerator.new databaseB) hp reportType user refs
        = OnHeap.generateReport (ReportGenerator.new databaseA) hp reportType user refs :=
    fun _ => rfl
  obtain ⟨ext1, h1⟩ :=
    generateReport_heap (ReportGenerator.new databaseA) heap reportType user refs items hrefs
  have hrefs1 : Heap.deref (heap ++ ext1) refs = items.map some :=
    deref_append heap ext1 refs items hrefs
  obtain ⟨ext2, h2⟩ :=
    generateReport_heap (ReportGenerator.new databaseA) (heap ++ ext1) reportType user refs items
      hrefs1
  refine ⟨hAB, heap ++ ext1, heap ++ ext1 ++ ext2, _, h1, h2, ?_, ?_, rfl⟩
  · rw [hstore]; exact h1
  · rw [hstore]; exact h2

/-- C11 witness: the scenario items as the objects 0 and 1, an administrator, the CSV format,
and generators built with a number and with a string as database. -/
theorem generateReport_deterministic_witness :
    Heap.deref scenarioItems [0, 1] = scenarioItems.map some
      ∧ (ReportGenerator.new (7 : Nat)).generateReport "CSV" bob scenarioItems
          = (ReportGenerator.new "db").generateReport "CSV" bob scenarioItems :=
  ⟨by decide,
    (generateReport_deterministic (7 : Nat) "db" "CSV" bob scenarioItems scenarioItems [0, 1]
      (by decide)).1⟩

/-! ## C12: the builder -/

/-- What `trim` does: it removes a run of white space at the front and one at the back, and what
is left neither starts nor ends with white space. -/
theorem trimChars_spec (cs : List Char) :
    ∃ pre suf : List Char, cs = pre ++ trimChars cs ++ suf
      ∧ (∀ c ∈ pre, isJsWhiteSpace c = true)
      ∧ (∀ c ∈ suf, isJsWhiteSpace c = true)
      ∧ (∀ c : Char, (trimChars cs).head? = some c → isJsWhiteSpace c = false)
      ∧ (∀ c : Char, (trimChars cs).getLast? = some c → isJsWhiteSpace c = false) := by
  have hm : cs.dropWhile isJsWhiteSpace
      = trimChars cs ++ ((cs.dropWhile isJsWhiteSpace).reverse.takeWhile isJsWhiteSpace).reverse := by
    have h := List.takeWhile_append_dropWhile isJsWhiteSpace
      (cs.dropWhile isJsWhiteSpace).reverse
    have h2 := congrArg List.reverse h
    rw [List.reverse_append, List.reverse_reverse] at h2
    exact h2.symm
  have hlast : ∀ c : Char, (trimChars cs).getLast? = some c → isJsWhiteSpace c = false := by
    intro c hc
    unfold trimChars at hc
    rw [List.getLast?_reverse] at hc
    have h := List.head?_dropWhile_not isJsWhiteSpace (cs.dropWhile isJsWhiteSpace).reverse
    rw [hc] at h
    simpa using h
  have hhead : ∀ c : Char, (trimChars cs).head? = some c → isJsWhiteSpace c = false := by
    intro c hc
    have h := List.head?_dropWhile_not isJsWhiteSpace cs
    have hc2 : (cs.dropWhile isJsWhiteSpace).head? = some c := by
      rw [hm]
      cases ht : trimChars cs with
      | nil => rw [ht] at hc; simp at hc
      | cons a t => rw [ht] at hc; simpa using hc
    rw [hc2] at h
    simpa using h
  refine ⟨cs.takeWhile isJsWhiteSpace,
    ((cs.dropWhile isJsWhiteSpace).reverse.takeWhile isJsWhiteSpace).reverse, ?_, ?_, ?_,
    hhead, hlast⟩
  · rw [List.append_assoc, ← hm, List.takeWhile_append_dropWhile]
  · intro c hc
    exact (List.mem_takeWhile_imp hc)
  · intro c hc
    exact (List.mem_takeWhile_imp (List.mem_reverse.mp hc))

/-- C12: for every formatter, user, item list and total, `buildReport` returns the trimmed
concatenation of the header for the user name, one row per item in list order, each called with
the item, the user name and the flag `priority` (false when absent), and the footer for the
total. The trim removes white space at the two ends only. -/
theorem buildReport_is_trimmed_concatenation (f : Formatter) (user : User) (items : List Item)
    (total : Int) :
    ∃ raw : String,
      raw = f.generateHeader user.name
          ++ String.join (items.map fun item =>
              f.generateItemRow item user.name (item.priority.getD false))
          ++ f.generateFooter total
        ∧ ReportGenerator.buildReport (.formatter f) user items total = .ok (jsTrim raw)
        ∧ ∃ pre suf : List Char, raw.data = pre ++ (jsTrim raw).data ++ suf
            ∧ (∀ c ∈ pre, isJsWhiteSpace c = true)
            ∧ (∀ c ∈ suf, isJsWhiteSpace c = true)
            ∧ (∀ c : Char, (jsTrim raw).data.head? = some c → isJsWhiteSpace c = false)
            ∧ (∀ c : Char, (jsTrim raw).data.getLast? = some c → isJsWhiteSpace c = false) := by
  have hflag : ∀ item : Item, item.isPriority = item.priority.getD false := by
    intro item
    unfold Item.isPriority
    cases item.priority with
    | none => rfl
    | some b => cases b <;> rfl
  refine ⟨_, rfl, ?_, trimChars_spec _⟩
  rw [buildReport_formatter]
  have hrows : (items.map fun item => f.generateItemRow item user.name item.isPriority)
      = items.map fun item => f.generateItemRow item user.name (item.priority.getD false) :=
    List.map_congr_left fun item _ => by rw [hflag item]
  rw [hrows]

/-! ## C13: what a user sees of the annotation -/

/-- The HTML row of an item that is not prioritized has a plain `<tr>`. -/
theorem html_row_plain (item : Item) (userName : String) (h : item.isPriority = false) :
    HTMLFormatter.generateItemRow item userName item.isPriority
      = "<tr><td>" ++ item.id.render ++ "</td><td>" ++ item.name ++ "</td><td>"
          ++ numberToString item.value ++ "</td></tr>\n" := by
  have e : ("<tr" ++ "" ++ "><td>" : String) = "<tr><td>" := by decide
  rw [h]
  simp only [HTMLFormatter, Bool.false_eq_true, if_false, e]

set_option maxRecDepth 20000 in
/-- C13 (as stated, refuted): Carol, of role `USER`, is given an item of value 200 that already
carries `priority: true`; the item is shown to her with a truthy flag and its HTML row is bold. -/
theorem user_sees_bold_row_of_annotated_input :
    (ReportGenerator.new ()).generateReport "HTML" carol [preAnnotated]
        = .ok ("<html><body>\n<h1>Relatório</h1>\n<h2>Usuário: Carol</h2>\n<table>\n"
            ++ "<tr><th>ID</th><th>Nome</th><th>Valor</th></tr>\n"
            ++ "<tr style=\"font-weight:bold;\"><td>1</td><td>A</td><td>200</td></tr>\n"
            ++ "</table>\n<h3>Total: 200</h3>\n</body></html>")
      ∧ ¬ ∀ item ∈ ReportGenerator.filterItemsByUserRole carol [preAnnotated],
          item.isPriority = false := by
  constructor
  · rw [generateReport_html]
    rfl
  · intro h
    exact absurd (h preAnnotated (by decide)) (by decide)

/-- C13 (amended): for a user of role `USER`, every item shown is one of the input items as it
was supplied, so its flag is the one it came with; when no input item carries a truthy priority,
`buildReport` calls the row generator with flag false for every item shown, and no HTML row has
the bold style attribute. -/
theorem user_rows_not_bold (f : Formatter) (user : User) (items : List Item) (total : Int)
    (hrole : user.role = some "USER") (hin : ∀ item ∈ items, item.isPriority = false) :
    (∀ item ∈ ReportGenerator.filterItemsByUserRole user items, item ∈ items)
      ∧ (∀ item ∈ ReportGenerator.filterItemsByUserRole user items, item.isPriority = false)
      ∧ ReportGenerator.buildReport (.formatter f) user
          (ReportGenerator.filterItemsByUserRole user items) total
        = .ok (jsTrim (f.generateHeader user.name
            ++ String.join ((ReportGenerator.filterItemsByUserRole user items).map fun item =>
                f.generateItemRow item user.name false)
            ++ f.generateFooter total))
      ∧ ∀ item ∈ ReportGenerator.filterItemsByUserRole user items,
          HTMLFormatter.generateItemRow item user.name item.isPriority
            = "<tr><td>" ++ item.id.render ++ "</td><td>" ++ item.name ++ "</td><td>"
                ++ numberToString item.value ++ "</td></tr>\n" := by
  have hf : ReportGenerator.filterItemsByUserRole user items
      = ReportGenerator.processUserItems items := by
    simp [ReportGenerator.filterItemsByUserRole, hrole]
  have hmem : ∀ item ∈ ReportGenerator.filterItemsByUserRole user items, item ∈ items := by
    intro item h
    rw [hf] at h
    exact (List.mem_filter.mp h).1
  have hflag : ∀ item ∈ ReportGenerator.filterItemsByUserRole user items,
      item.isPriority = false := fun item h => hin item (hmem item h)
  refine ⟨hmem, hflag, ?_, fun item h => html_row_plain item user.name (hflag item h)⟩
  rw [buildReport_formatter]
  have hrows : ((ReportGenerator.filterItemsByUserRole user items).map fun item =>
        f.generateItemRow item user.name item.isPriority)
      = (ReportGenerator.filterItemsByUserRole user items).map fun item =>
        f.generateItemRow item user.name false :=
    List.map_congr_left fun item h => by rw [hflag item h]
  rw [hrows]

/-- C13 witness: Carol and the scenario items, none of which carries a priority. -/
theorem user_rows_not_bold_witness :
    (carol.role = some "USER" ∧ ∀ item ∈ scenarioItems, item.isPriority = false)
      ∧ ∀ item ∈ ReportGenerator.filterItemsByUserRole carol scenarioItems,
          item.isPriority = false :=
  ⟨⟨by decide, by decide⟩,
    (user_rows_not_bold HTMLFormatter carol scenarioItems 200 (by decide) (by decide)).2.1⟩

/-! ## C14: the CSV formatter and the annotation -/

/-- The fields other than the annotation are kept by `processAdminItems`. -/
theorem processAdminItems_core (items : List Item) :
    (ReportGenerator.processAdminItems items).map Item.core = items.map Item.core := by
  unfold ReportGenerator.processAdminItems
  rw [List.map_map]
  exact List.map_congr_left fun x _ => (adminCallback_spec x).1

/-- The filter sees the annotation of its input only through the annotation of its output. -/
theorem filterItemsByUserRole_withoutPriority_core (user : User) (items : List Item) :
    (ReportGenerator.filterItemsByUserRole user (items.map Spec.withoutPriority)).map Item.core
      = (ReportGenerator.filterItemsByUserRole user items).map Item.core := by
  have hstrip : ∀ xs : List Item, (xs.map Spec.withoutPriority).map Item.core
      = xs.map Item.core := by
    intro xs
    rw [List.map_map]
    exact List.map_congr_left fun x _ => rfl
  unfold ReportGenerator.filterItemsByUserRole
  split
  · rw [processAdminItems_core, processAdminItems_core, hstrip]
  · split
    · unfold ReportGenerator.processUserItems
      rw [List.filter_map, hstrip]
      rfl
    · rfl

/-- The CSV document depends on the items only through the fields other than the annotation. -/
theorem csvDocument_core (userName : String) (xs ys : List Item) (total : Int)
    (h : xs.map Item.core = ys.map Item.core) :
    Spec.csvDocument userName xs total = Spec.csvDocument userName ys total := by
  have hrows : ∀ zs : List Item,
      (zs.map fun item =>
        item.id.render ++ "," ++ item.name ++ "," ++ numberToString item.value ++ "," ++ userName
          ++ "\n")
      = (zs.map Item.core).map fun c =>
        c.1.render ++ "," ++ c.2.1 ++ "," ++ numberToString c.2.2.1 ++ "," ++ userName ++ "\n" := by
    intro zs
    rw [List.map_map]
    exact List.map_congr_left fun x _ => rfl
  unfold Spec.csvDocument
  rw [hrows xs, hrows ys, h]

/-- The total depends on the items only through their values. -/
theorem calculateTotal_core (xs ys : List Item) (h : xs.map Item.core = ys.map Item.core) :
    ReportGenerator.calculateTotal xs = ReportGenerator.calculateTotal ys := by
  have hfold : ∀ zs : List Item,
      ReportGenerator.calculateTotal zs
        = (zs.map Item.core).foldl (fun sum c => jsAdd sum c.2.2.1) 0 := by
    intro zs
    unfold ReportGenerator.calculateTotal
    rw [List.foldl_map]
    rfl
  rw [hfold xs, hfold ys, h]

/-- C14: the CSV formatter ignores the annotation. Its row is the same text with flag true as
with flag false; the CSV report built from a list of items equals the one built from the same
items without their priority, and so does the CSV report generated from them. In scenario A
the row of the prioritized item 1 shows no emphasis and the total is 1700. -/
theorem csv_ignores_priority {Db : Type} (database : Db) (item : Item) (userName : String)
    (user : User) (items : List Item) (total : Int) :
    CSVFormatter.generateItemRow item userName true
        = CSVFormatter.generateItemRow item userName false
      ∧ CSVFormatter.generateItemRow (Spec.withoutPriority item) userName false
        = CSVFormatter.generateItemRow item userName item.isPriority
      ∧ ReportGenerator.buildReport (.formatter CSVFormatter) user items total
        = ReportGenerator.buildReport (.formatter CSVFormatter) user
            (items.map Spec.withoutPriority) total
      ∧ (ReportGenerator.new database).generateReport "CSV" user items
        = (ReportGenerator.new database).generateReport "CSV" user
            (items.map Spec.withoutPriority)
      ∧ (ReportGenerator.new database).generateReport "CSV" bob scenarioItems
        = .ok "ID,NOME,VALOR,USUARIO\n1,A,1500,Bob\n2,B,200,Bob\n\nTotal,,\n1700,," := by
  refine ⟨rfl, rfl, ?_, ?_, ?_⟩
  · rw [buildReport_formatter, buildReport_formatter, List.map_map]
    rfl
  · rw [generateReport_csv, generateReport_csv]
    have hc := (filterItemsByUserRole_withoutPriority_core user items).symm
    rw [csvDocument_core user.name _ _ _ hc, calculateTotal_core _ _ hc]
  · rw [generateReport_csv]
    rfl

/-! ## C15: filtering twice -/

/-- C15: for every user, filtering the filtered list again with the same user gives the same
list, item by item and field by field. -/
theorem filterItemsByUserRole_idempotent (user : User) (items : List Item) :
    ReportGenerator.filterItemsByUserRole user
        (ReportGenerator.filterItemsByUserRole user items)
      = ReportGenerator.filterItemsByUserRole user items := by
  by_cases hadmin : user.role = some "ADMIN"
  · simp only [ReportGenerator.filterItemsByUserRole, hadmin, if_true]
    unfold ReportGenerator.processAdminItems
    rw [List.map_map]
    apply List.map_congr_left
    intro x _
    by_cases hv : x.value > PRIORITY_THRESHOLD
    · simp [hv]
    · simp [hv]
  · by_cases huser : user.role = some "USER"
    · have hf : ∀ xs : List Item, ReportGenerator.filterItemsByUserRole user xs
          = ReportGenerator.processUserItems xs := by
        intro xs
        unfold ReportGenerator.filterItemsByUserRole
        rw [if_neg hadmin, if_pos huser]
      rw [hf, hf]
      unfold ReportGenerator.processUserItems
      rw [List.filter_filter]
      simp
    · simp only [ReportGenerator.filterItemsByUserRole, hadmin, huser, if_false]

/-! ## C16: totals by role -/

/-- Dropping items of non-negative value cannot raise the sum of the values. -/
theorem sum_filter_le (p : Item → Bool) (items : List Item)
    (hnn : ∀ item ∈ items, 0 ≤ item.value) :
    ((items.filter p).map fun item => item.value).sum
      ≤ (items.map fun item => item.value).sum := by
  induction items with
  | nil => simp
  | cons x xs ih =>
    have hx : 0 ≤ x.value := hnn x (List.mem_cons_self _ _)
    have hrest := ih fun item h => hnn item (List.mem_cons_of_mem _ h)
    by_cases hp : p x = true
    · simp only [List.filter_cons, hp, if_true, List.map_cons, List.sum_cons]
      omega
    · simp only [List.filter_cons, hp, Bool.false_eq_true, if_false, List.map_cons,
        List.sum_cons]
      omega

/-- Non-negative values whose sum, added to a non-negative start, is a safe integer have safe
running totals. -/
theorem safeFrom_of_nonneg (items : List Item) (start : Int)
    (hnn : ∀ item ∈ items, 0 ≤ item.value) (hstart : 0 ≤ start)
    (hsum : start + (items.map fun item => item.value).sum ≤ MAX_SAFE_INTEGER) :
    Spec.safeFrom start items = true := by
  induction items generalizing start with
  | nil => rfl
  | cons x xs ih =>
    have hx : 0 ≤ x.value := hnn x (List.mem_cons_self _ _)
    have hxs : ∀ item ∈ xs, 0 ≤ item.value := fun item h => hnn item (List.mem_cons_of_mem _ h)
    have hrest : 0 ≤ (xs.map fun item => item.value).sum := by
      apply List.sum_nonneg
      intro v hv
      obtain ⟨item, hitem, rfl⟩ := List.mem_map.mp hv
      exact hxs item hitem
    simp only [List.map_cons, List.sum_cons] at hsum
    have hmax : MAX_SAFE_INTEGER = 9007199254740991 := rfl
    have h1 : isSafeInteger x.value = true := by
      simp only [isSafeInteger, decide_eq_true_eq]
      omega
    have h2 : isSafeInteger (start + x.value) = true := by
      simp only [isSafeInteger, decide_eq_true_eq]
      omega
    have h3 := ih (start + x.value) hxs (by omega) (by omega)
    simp only [Spec.safeFrom, h1, h2, h3, Bool.and_self]

/-- C16 (as stated, refuted): the values `2^53`, 1 and 1 are non-negative, yet the total of the
items visible to an administrator is `2^53`, not their sum `2^53 + 2`. -/
theorem admin_total_rounds_beyond_safe_range :
    (∀ item ∈ largeItemsAndOne, 0 ≤ item.value)
      ∧ ReportGenerator.calculateTotal
          (ReportGenerator.filterItemsByUserRole bob largeItemsAndOne) = 9007199254740992
      ∧ (largeItemsAndOne.map fun item => item.value).sum = 9007199254740994
      ∧ ¬ (ReportGenerator.calculateTotal
              (ReportGenerator.filterItemsByUserRole carol largeItemsAndOne)
            ≤ ReportGenerator.calculateTotal
                (ReportGenerator.filterItemsByUserRole bob largeItemsAndOne)
          ∧ ReportGenerator.calculateTotal
              (ReportGenerator.filterItemsByUserRole bob largeItemsAndOne)
            = (largeItemsAndOne.map fun item => item.value).sum) := by
  refine ⟨by decide, by decide, by decide, ?_⟩
  intro h
  exact absurd h.2 (by decide)

/-- C16 (amended): when every value is non-negative and the sum of the values is at most
`2^53 - 1`, the total of the items visible to a `USER` is at most the total of the items visible
to an `ADMIN`, and the latter is the sum of the values of the whole input. -/
theorem user_total_le_admin_total (admin user : User) (items : List Item)
    (hadmin : admin.role = some "ADMIN") (huser : user.role = some "USER")
    (hnn : ∀ item ∈ items, 0 ≤ item.value)
    (hsum : (items.map fun item => item.value).sum ≤ MAX_SAFE_INTEGER) :
    ReportGenerator.calculateTotal (ReportGenerator.filterItemsByUserRole user items)
        ≤ ReportGenerator.calculateTotal (ReportGenerator.filterItemsByUserRole admin items)
      ∧ ReportGenerator.calculateTotal (ReportGenerator.filterItemsByUserRole admin items)
        = (items.map fun item => item.value).sum := by
  have hA : ReportGenerator.filterItemsByUserRole admin items
      = ReportGenerator.processAdminItems items := by
    simp [ReportGenerator.filterItemsByUserRole, hadmin]
  have hU : ReportGenerator.filterItemsByUserRole user items
      = ReportGenerator.processUserItems items := by
    simp [ReportGenerator.filterItemsByUserRole, huser]
  have hsafe : Spec.safeTotals items = true :=
    safeFrom_of_nonneg items 0 hnn (le_refl 0) (by simpa using hsum)
  have hAsum : ReportGenerator.calculateTotal (ReportGenerator.processAdminItems items)
      = (items.map fun item => item.value).sum := by
    rw [calculateTotal_core _ items (processAdminItems_core items),
      calculateTotal_eq_sum items hsafe]
  have hle := sum_filter_le (fun item => decide (item.value ≤ USER_VALUE_LIMIT)) items hnn
  have hsafeU : Spec.safeTotals (ReportGenerator.processUserItems items) = true := by
    apply safeFrom_of_nonneg _ 0 _ (le_refl 0)
    · unfold ReportGenerator.processUserItems
      have := Int.le_trans hle hsum
      simpa using this
    · intro item h
      exact hnn item (List.mem_filter.mp h).1
  rw [hA, hU, hAsum]
  refine ⟨?_, rfl⟩
  rw [calculateTotal_eq_sum _ hsafeU]
  exact hle

/-- C16 witness: Carol sees a total of 200, Bob a total of 1700, the sum of the input. -/
theorem user_total_le_admin_total_witness :
    (bob.role = some "ADMIN" ∧ carol.role = some "USER"
        ∧ (∀ item ∈ scenarioItems, 0 ≤ item.value)
        ∧ (scenarioItems.map fun item => item.value).sum ≤ MAX_SAFE_INTEGER)
      ∧ ReportGenerator.calculateTotal (ReportGenerator.filterItemsByUserRole carol scenarioItems)
          ≤ ReportGenerator.calculateTotal (ReportGenerator.filterItemsByUserRole bob scenarioItems)
      ∧ ReportGenerator.calculateTotal (ReportGenerator.filterItemsByUserRole bob scenarioItems)
          = (scenarioItems.map fun item => item.value).sum :=
  ⟨⟨by decide, by decide, by decide, by decide⟩,
    user_total_le_admin_total bob carol scenarioItems (by decide) (by decide) (by decide)
      (by decide)⟩

end ReportGen
